import Mathlib

/-!
# Verification of the CFIA recall bot core

Shallow embedding of the coordination core of the `cfia-recall-bot`
repository (`src/database.ts`, `src/discordBot.ts`) together with proofs
of the spec's testable properties.

Modelling conventions:
* JavaScript strings are Lean `String`s; `string.length` (UTF-16 code
  units in JavaScript) is modelled by `jsLength` below.
* `Date` values are represented by their ISO rendering, so
  `Date.prototype.toISOString` is the identity on the representation.
* The SQLite `messages` and `settings` tables are association lists held
  in a `DbState`; `AUTOINCREMENT` is an explicit `nextId` counter
  starting at 1.  The non-business `created_at` column is omitted.
* Fallible operations return `Option`/`Except` values instead of
  throwing.
-/

/-- Number of UTF-16 code units a character occupies in a JavaScript
string (characters outside the BMP are surrogate pairs). -/
def charUtf16 (c : Char) : Nat :=
  if c.toNat < 65536 then 1 else 2

/-- JavaScript `string.length`: the number of UTF-16 code units. -/
def jsLength (s : String) : Nat :=
  (s.data.map charUtf16).sum

theorem jsLength_append (a b : String) :
    jsLength (a ++ b) = jsLength a + jsLength b := by
  simp [jsLength, String.data_append]

/-! ## Database model (`src/database.ts`) -/

/-- `DiscordMessage` interface from `database.ts`: the message as handed
to `addMessage`.  `timestamp` holds the ISO rendering of the `Date`. -/
structure DiscordMessage where
  id : String
  userId : String
  content : String
  timestamp : String
  channelId : String
deriving Repr, DecidableEq

/-- A row of the `messages` table (`StoredMessage` interface).  `id` is
the auto-increment storage id; `message_id` is the external Discord
message id with a UNIQUE constraint. -/
structure StoredMessage where
  id : Nat
  message_id : String
  user_id : String
  content : String
  timestamp : String
  channel_id : String
deriving Repr, DecidableEq

/-- The persistent store: the `messages` table rows in insertion order,
the auto-increment counter, and the `settings` key/value table. -/
structure DbState where
  messages : List StoredMessage
  nextId : Nat
  settings : List (String × String)
deriving Repr, DecidableEq

/-- A freshly initialised database: empty tables, auto-increment at 1. -/
def initialState : DbState :=
  { messages := [], nextId := 1, settings := [] }

/-- `DatabaseManager.addMessage`: INSERT the message; on a UNIQUE
constraint violation of `message_id` the catch branch returns `null`
(modelled `none`) instead of rethrowing; otherwise the new
`lastInsertRowid` is returned. -/
def addMessage (st : DbState) (message : DiscordMessage) :
    Option Nat × DbState :=
  if st.messages.any (fun r => r.message_id = message.id) then
    (none, st)
  else
    (some st.nextId,
      { st with
          messages := st.messages ++
            [{ id := st.nextId, message_id := message.id,
               user_id := message.userId, content := message.content,
               timestamp := message.timestamp,
               channel_id := message.channelId }],
          nextId := st.nextId + 1 })

/-- `DatabaseManager.getMessageCount`: scoped count when a channel id is
given, global `COUNT(*)` otherwise. -/
def getMessageCount (st : DbState) (channelId : Option String) : Nat :=
  match channelId with
  | some c => (st.messages.filter (fun r => r.channel_id = c)).length
  | none => st.messages.length

/-- Key under which the reporter identity is stored in `settings`. -/
def reporterKey : String := "reporter_user_id"

/-- The fixed default reporter identity literal from
`getReporterUserId`. -/
def defaultReporterUserId : String := "268478587651358721"

/-- `INSERT OR REPLACE INTO settings` (upsert by key). -/
def upsertSetting (settings : List (String × String)) (key value : String) :
    List (String × String) :=
  if settings.any (fun kv => kv.1 = key) then
    settings.map (fun kv => if kv.1 = key then (key, value) else kv)
  else
    settings ++ [(key, value)]

/-- `DatabaseManager.setReporterUserId`. -/
def setReporterUserId (st : DbState) (userId : String) : DbState :=
  { st with settings := upsertSetting st.settings reporterKey userId }

/-- `DatabaseManager.getReporterUserId`: `result?.value || default`.
JavaScript `||` falls back to the default when the stored value is the
empty string (falsy), not only when the row is absent. -/
def getReporterUserId (st : DbState) : String :=
  match st.settings.find? (fun kv => kv.1 = reporterKey) with
  | some kv => if kv.2 = "" then defaultReporterUserId else kv.2
  | none => defaultReporterUserId

/-- Modelled from the spec: `getMessagesByAuthor` / `getMessagesByUserId`
is called at `discordBot.ts:505` but its definition is missing from the
sources (the `DatabaseManager` in `database.ts` does not declare it).
Per spec §4.1 it returns the ordered sequence of all of the author's
stored messages, all fields, with no pagination limit. -/
def getMessagesByUserId (st : DbState) (userId : String) :
    List StoredMessage :=
  st.messages.filter (fun r => r.user_id = userId)

/-! ## Live ingestion (`DiscordBot.handleNewMessage`) -/

/-- An inbound live message event as delivered by the client:
`message.author.bot`, `message.author.id`, `message.createdAt` (ISO
rendering) and the rest of the mapped fields. -/
structure InboundMessage where
  id : String
  authorId : String
  authorIsBot : Bool
  content : String
  createdAt : String
  channelId : String
deriving Repr, DecidableEq

/-- The guard cascade of `handleNewMessage` (discordBot.ts:477-497): the
argument passed to `db.addMessage`, or `none` when an early `return`
fires (bot author, untracked channel, or non-reporter author — the
reporter id is read fresh from the store on every event). -/
def handleNewMessageStoreArg (trackedChannels : List String)
    (st : DbState) (message : InboundMessage) : Option DiscordMessage :=
  if message.authorIsBot then none
  else if ¬ trackedChannels.contains message.channelId then none
  else if message.authorId ≠ getReporterUserId st then none
  else some
    { id := message.id, userId := message.authorId,
      content := message.content, timestamp := message.createdAt,
      channelId := message.channelId }

/-- `handleNewMessage`: perform the store call when the filter passes,
otherwise leave the store untouched. -/
def handleNewMessage (trackedChannels : List String) (st : DbState)
    (message : InboundMessage) : DbState :=
  match handleNewMessageStoreArg trackedChannels st message with
  | none => st
  | some d => (addMessage st d).2

/-! ## History backfill (`DiscordBot.handleUpdateCommand`) -/

/-- A raw message in a fetched page, as exposed by the channel handle. -/
structure RawMessage where
  id : String
  authorId : String
  content : String
  createdAt : String
  channelId : String
deriving Repr, DecidableEq

/-- The field mapping performed inside the backfill loop
(discordBot.ts:366-372). -/
def toDiscordMessage (message : RawMessage) : DiscordMessage :=
  { id := message.id, userId := message.authorId,
    content := message.content, timestamp := message.createdAt,
    channelId := message.channelId }

/-- Store one fetched page (discordBot.ts:365-378): call `addMessage`
for each raw message in page order and count the non-`null` results
(`totalStored` increments). -/
def storePage (st : DbState) : List RawMessage → Nat × DbState
  | [] => (0, st)
  | message :: rest =>
      let res := addMessage st (toDiscordMessage message)
      let r := storePage res.2 rest
      ((if res.1.isSome then 1 else 0) + r.1, r.2)

/-- The Discord API page-size limit (`batchSize` in the source). -/
def batchSize : Nat := 100

/-- Result of one backfill run: the two reported counters, the store
after all inserts, and the number of fetches issued. -/
structure BackfillResult where
  totalFetched : Nat
  totalStored : Nat
  db : DbState
  fetchCount : Nat
deriving Repr, DecidableEq

/-- The `while (true)` pagination loop of `handleUpdateCommand`
(discordBot.ts:350-384), run against an injected fetch capability that
serves the given pages in order (the `before` cursor is subsumed by the
page sequence).  An empty page breaks immediately; a page smaller than
`batchSize` is stored fully and then breaks; otherwise the loop
continues with the next page. -/
def backfillLoop (st : DbState) : List (List RawMessage) → BackfillResult
  | [] => ⟨0, 0, st, 0⟩
  | page :: rest =>
      if page.length = 0 then ⟨0, 0, st, 1⟩
      else
        let sp := storePage st page
        if page.length < batchSize then ⟨page.length, sp.1, sp.2, 1⟩
        else
          let r := backfillLoop sp.2 rest
          ⟨page.length + r.totalFetched, sp.1 + r.totalStored, r.db,
            1 + r.fetchCount⟩

/-! ## Recall-reason extraction (`generateStatsMessage`, part 1)

The regex `/recalled due to\s+(.+?)(?:\n|$|\*\*)/i` is embedded as an
explicit backtracking matcher: leftmost start position first; at a
position, the literal matches case-insensitively, `\s+` greedily tries
the longest whitespace run first, `(.+?)` lazily tries the shortest
capture first, and the terminator is a newline, the end of the string,
or a `**` sequence. -/

/-- JavaScript `\s` (restricted to the ASCII whitespace characters). -/
def wsChar (c : Char) : Bool :=
  c = ' ' || c = '\t' || c = '\n' || c = '\r' ||
  c = (Char.ofNat 11) || c = (Char.ofNat 12)

/-- Case-insensitive character comparison, as under the `/i` flag. -/
def lowerEq (a b : Char) : Bool :=
  a.toLower = b.toLower

/-- Match a literal case-insensitively, returning the rest of the
input. -/
def matchLitCI : List Char → List Char → Option (List Char)
  | [], cs => some cs
  | _ :: _, [] => none
  | p :: ps, c :: cs => if lowerEq p c then matchLitCI ps cs else none

/-- Does the input start with the `**` bold delimiter? -/
def startsWithBold : List Char → Bool
  | '*' :: '*' :: _ => true
  | _ => false

/-- The terminator alternation `(?:\n|$|\*\*)`. -/
def captureEnd (cs : List Char) : Bool :=
  match cs with
  | [] => true
  | c :: _ => c = '\n' || startsWithBold cs

/-- The lazy capture `(.+?)`: the shortest non-empty run of
non-newline characters after which the terminator matches. -/
def lazyCapture : List Char → List Char → Option (List Char)
  | [], _ => none
  | c :: rest, acc =>
      if c = '\n' then none
      else
        let acc' := acc ++ [c]
        if captureEnd rest then some acc' else lazyCapture rest acc'

/-- Backtracking over the greedy `\s+`: try `w` whitespace characters,
longest first, down to one. -/
def tryWs (afterLit : List Char) : Nat → Option (List Char)
  | 0 => none
  | w + 1 =>
      match lazyCapture (afterLit.drop (w + 1)) [] with
      | some cap => some cap
      | none => tryWs afterLit w

/-- Attempt the whole pattern at the current position. -/
def matchAt (cs : List Char) : Option (List Char) :=
  match matchLitCI "recalled due to".data cs with
  | none => none
  | some rest => tryWs rest (rest.takeWhile wsChar).length

/-- Scan for the leftmost position with a match. -/
def searchRecall : List Char → Option (List Char)
  | [] => none
  | c :: cs =>
      match matchAt (c :: cs) with
      | some cap => some cap
      | none => searchRecall cs

/-- `message.content.match(/recalled due to\s+(.+?)(?:\n|$|\*\*)/i)`,
returning the first capture group (`recallMatch[1]`). -/
def extractRecallReason (content : String) : Option String :=
  (searchRecall content.data).map String.mk

/-- Trailing-punctuation class of `/[.,:;!?]+$/`. -/
def isTrailingPunct (c : Char) : Bool :=
  c = '.' || c = ',' || c = ':' || c = ';' || c = '!' || c = '?'

/-- `reason.replace(/[.,:;!?]+$/, "")`. -/
def stripTrailingPunct (s : String) : String :=
  String.mk ((s.data.reverse.dropWhile isTrailingPunct).reverse)

/-- JavaScript `String.prototype.trim`: strip leading and trailing
whitespace (structural implementation, as the core library's `trim` is
defined by well-founded recursion). -/
def jsTrim (s : String) : String :=
  String.mk (((s.data.dropWhile wsChar).reverse.dropWhile wsChar).reverse)

/-- `reason.replace(/\*\*/g, "")`: drop every non-overlapping `**`
occurrence, left to right. -/
def removeBoldAux : List Char → List Char
  | '*' :: '*' :: rest => removeBoldAux rest
  | c :: rest => c :: removeBoldAux rest
  | [] => []

/-- `reason.replace(/\*\*/g, "")` on strings. -/
def removeBold (s : String) : String :=
  String.mk (removeBoldAux s.data)

/-- JavaScript `jsToLower String.prototypeCase` (ASCII case folding). -/
def jsToLower (s : String) : String :=
  String.mk (s.data.map Char.toLower)

/-- The cleanup applied to the captured reason
(discordBot.ts:523-528): trim, strip bold markdown, strip trailing
punctuation, trim again. -/
def cleanReason (raw : String) : String :=
  jsTrim (stripTrailingPunct (removeBold (jsTrim raw)))

/-! ## Grouping (`generateStatsMessage`, part 2) -/

/-- One pass of the case-insensitive grouping
(discordBot.ts:530-543): find the first existing key whose lower-casing
equals the new reason's lower-casing and increment it (keeping the
first-seen casing as the key); otherwise append a new group with count 1
under the current casing.  The association list mirrors the insertion
order of the `recallReasons` object. -/
def addReason : List (String × Nat) → String → List (String × Nat)
  | [], reason => [(reason, 1)]
  | g :: rest, reason =>
      if jsToLower g.1 = jsToLower reason then (g.1, g.2 + 1) :: rest
      else g :: addReason rest reason

/-- The extraction-and-grouping loop over all messages
(discordBot.ts:512-545): returns the groups in discovery order together
with `totalRecallMessages`. -/
def processMessages (messages : List StoredMessage) :
    List (String × Nat) × Nat :=
  messages.foldl
    (fun acc message =>
      match extractRecallReason message.content with
      | none => acc
      | some raw => (addReason acc.1 (cleanReason raw), acc.2 + 1))
    ([], 0)

/-- Stable insertion step for the descending-by-count sort: an element
is placed before the first entry whose count is not larger, so entries
with equal counts keep their relative order. -/
def insertDesc (x : String × Nat) : List (String × Nat) → List (String × Nat)
  | [] => [x]
  | y :: l => if y.2 ≤ x.2 then x :: y :: l else y :: insertDesc x l

/-- `....sort(([, a], [, b]) => b - a)`: JavaScript
`Array.prototype.sort` is stable, so this is the stable sort by count
descending, applied to the entry list in enumeration order. -/
def sortByCountDesc : List (String × Nat) → List (String × Nat)
  | [] => []
  | x :: l => insertDesc x (sortByCountDesc l)

/-- Numeric value of an all-digit character list (`none` when a
non-digit occurs). -/
def digitsVal : List Char → Nat → Option Nat
  | [], acc => some acc
  | c :: rest, acc =>
      if c.isDigit then digitsVal rest (acc * 10 + (c.toNat - 48))
      else none

/-- Is the string a canonical array-index property key in the ECMAScript
sense: a base-10 numeral without leading zeros (except "0" itself) whose
value is at most 2^32 - 2?  Such keys are enumerated before all other
own string keys. -/
def isArrayIndexKey (s : String) : Bool :=
  match s.data with
  | [] => false
  | c :: rest =>
      if c = '0' then rest.isEmpty
      else
        match digitsVal (c :: rest) 0 with
        | some n => n ≤ 4294967294
        | none => false

/-- Numeric value of an array-index key. -/
def keyVal (s : String) : Nat :=
  (digitsVal s.data 0).getD 0

/-- Insert into a list of array-index entries, ascending by numeric key
value (array-index keys in one object are distinct, so no tie arises). -/
def insertAscByVal (x : String × Nat) :
    List (String × Nat) → List (String × Nat)
  | [] => [x]
  | y :: l => if keyVal x.1 ≤ keyVal y.1 then x :: y :: l
              else y :: insertAscByVal x l

/-- Sort array-index entries ascending by numeric key value. -/
def sortAscByVal : List (String × Nat) → List (String × Nat)
  | [] => []
  | x :: l => insertAscByVal x (sortAscByVal l)

/-- `Object.entries(recallReasons)` (discordBot.ts:552): JavaScript
enumerates an ordinary object's own string keys with array-index keys
first, in ascending numeric order, and only then the remaining keys in
insertion (discovery) order — ECMAScript OrdinaryOwnPropertyKeys. -/
def jsEntries (groups : List (String × Nat)) : List (String × Nat) :=
  sortAscByVal (groups.filter (fun g => isArrayIndexKey g.1)) ++
    groups.filter (fun g => ! isArrayIndexKey g.1)

/-! ## Report rendering (`generateStatsMessage`, part 4) -/

/-- Insert a comma after every three characters of the reversed digit
string (helper for `toLocaleString`). -/
def insertThousands : List Char → List Char
  | a :: b :: c :: d :: rest => a :: b :: c :: ',' :: insertThousands (d :: rest)
  | l => l

/-- `Number.prototype.toLocaleString()` for naturals: digits grouped in
threes by commas. -/
def toLocaleString (n : Nat) : String :=
  String.mk ((insertThousands (toString n).data.reverse).reverse)

/-- `((count / totalRecallMessages) * 100).toFixed(1)`, modelled as the
exact rational value rounded half-up to one decimal place (IEEE
floating point is not modelled; no claim depends on the digits). -/
def pctString (count total : Nat) : String :=
  let tenths := (2000 * count + total) / (2 * total)
  toString (tenths / 10) ++ "." ++ toString (tenths % 10)

/-- `const medals = ["🥇", "🥈", "🥉"]`. -/
def medals : List String := ["🥇", "🥈", "🥉"]

/-- The `emoji` decoration of one ranked entry
(discordBot.ts:603-607): a medal for the top three, empty otherwise. -/
def entryMarker (i : Nat) : String :=
  if i < 3 then medals.getD i "" ++ " " else ""

/-- One ranked list line (discordBot.ts:610). -/
def reasonLine (i : Nat) (reason : String) (count total : Nat) : String :=
  entryMarker i ++ "**" ++ reason ++ "** - " ++ toString count ++
    " times (" ++ pctString count total ++ "%)\n"

/-- `maxLength` (discordBot.ts:557): the 1900-character budget. -/
def maxLength : Nat := 1900

/-- `maxEntries` (discordBot.ts:599): at most the top 20 entries. -/
def maxEntries : Nat := 20

/-- The mid-list truncation marker appended inside the loop
(discordBot.ts:617). -/
def midTruncationMarker (remainingReasons : Nat) : String :=
  "\n📋 *...and " ++ toString remainingReasons ++ " more reason" ++
    (if remainingReasons > 1 then "s" else "") ++ " (message truncated)*"

/-- The marker appended after the loop when more than `maxEntries`
groups exist (discordBot.ts:627). -/
def notShownMarker (remainingReasons : Nat) : String :=
  "\n📋 *...and " ++ toString remainingReasons ++ " more reason" ++
    (if remainingReasons > 1 then "s" else "") ++ " not shown*"

/-- The ranked-list loop (discordBot.ts:601-622).  `total` is
`totalRecallMessages`, `totalGroups` is `sortedReasons.length`, `avail`
the precomputed `availableSpace`, `i` the loop index and `acc` the
section built so far.  Returns the section string, the entries actually
rendered (with their loop index), and the `truncated` flag.  The entry
list is not part of the source string-building but records which
iterations appended a line. -/
def reasonsLoop (total totalGroups : Nat) (avail : Int) :
    List (String × Nat) → Nat → String →
    String × List (Nat × String × Nat) × Bool
  | [], _, acc => (acc, [], false)
  | (reason, count) :: rest, i, acc =>
      if i < maxEntries then
        let line := reasonLine i reason count total
        if (jsLength acc : Int) + (jsLength line : Int) + 50 > avail then
          (acc ++ midTruncationMarker (totalGroups - i), [], true)
        else
          let r := reasonsLoop total totalGroups avail rest (i + 1) (acc ++ line)
          (r.1, (i, reason, count) :: r.2.1, r.2.2)
      else (acc, [], false)

/-- The header block (discordBot.ts:560-564). -/
def headerOf (messages : List StoredMessage) (totalRecallMessages : Nat) :
    String :=
  "🏆 **RECALL STATS EXTRAVAGANZA!** 🏆\n\n" ++
  "📈 **Total Messages Analyzed:** " ++ toLocaleString messages.length ++ "\n" ++
  "🚨 **Total Recall Messages Found:** " ++ toString totalRecallMessages ++ "\n\n" ++
  "🥇 **TOP RECALL REASONS** 🥇\n" ++
  "━━━━━━━━━━━━━━━━━━━━━━\n"

/-- The fun-facts block (discordBot.ts:569-574). -/
def funFactsSection (sortedReasons : List (String × Nat)) : String :=
  "\n🎯 **Fun Facts:**\n" ++
  "• Most common reason: **" ++ (sortedReasons.headD ("", 0)).1 ++ "** 📊\n" ++
  "• Unique recall types: **" ++ toString sortedReasons.length ++ "** 🎨\n" ++
  (if sortedReasons.length > 1 then
    "• Runner-up reason: **" ++ (sortedReasons.getD 1 ("", 0)).1 ++ "** 🥈\n"
  else "")

/-- JavaScript `String.prototype.includes` (substring test). -/
def containsSubAux (needle : List Char) : List Char → Bool
  | [] => needle.isEmpty
  | c :: cs => needle.isPrefixOf (c :: cs) || containsSubAux needle cs

/-- JavaScript `hay.includes(sub)`. -/
def jsIncludes (hay sub : String) : Bool :=
  containsSubAux sub.data hay.data

/-- The pathogen-specific remark (discordBot.ts:577-587). -/
def specialEmojiOf (sortedReasons : List (String × Nat)) : String :=
  let top := jsToLower (sortedReasons.headD ("", 0)).1
  if jsIncludes top "salmonella" then
    "\n🦠 Looks like Salmonella is quite the troublemaker! 🧪"
  else if jsIncludes top "listeria" then
    "\n🧫 Listeria strikes again! Stay safe out there! 🛡️"
  else if jsIncludes top "e. coli" || jsIncludes top "e.coli" then
    "\n🦠 E. coli causing chaos as usual! 💥"
  else ""

/-- The footer (discordBot.ts:589). -/
def statsFooter : String := "\n\n📊 *Powered by CFIA Recall Bot* 🤖✨"

/-- The generic whole-line truncation marker of the final safety net
(discordBot.ts:648). -/
def truncMarkerLine : String := "📋 *Message truncated due to length limit*"

/-- The line-accumulation loop of the final safety net
(discordBot.ts:643-651): keep whole lines while they fit under the
budget shifted by `overage`, else push the generic marker and stop. -/
def safeLinesGo (overage : Nat) : Nat → List String → List String
  | _, [] => []
  | cur, l :: rest =>
      if cur + jsLength l + 1 + overage ≤ maxLength then
        l :: safeLinesGo overage (cur + jsLength l + 1) rest
      else [truncMarkerLine]

/-- JavaScript `Array.prototype.join("\n")`. -/
def jsJoin : List String → String
  | [] => ""
  | [l] => l
  | l :: rest => l ++ "\n" ++ jsJoin rest

/-- JavaScript `statsMessage.split("\n")`, accumulating the current
line in reverse. -/
def splitLinesAux : List Char → List Char → List String
  | [], acc => [String.mk acc.reverse]
  | '\n' :: rest, acc => String.mk acc.reverse :: splitLinesAux rest []
  | c :: rest, acc => splitLinesAux rest (c :: acc)

/-- JavaScript `statsMessage.split("\n")`. -/
def jsSplitOnNewline (s : String) : List String :=
  splitLinesAux s.data []

/-- The final safety check (discordBot.ts:637-654): if the assembled
message still exceeds `maxLength`, drop trailing whole lines and append
the generic truncation marker. -/
def finalLengthCheck (statsMessage : String) : String :=
  if jsLength statsMessage > maxLength then
    jsJoin (safeLinesGo (jsLength statsMessage - maxLength + 50) 0
      (jsSplitOnNewline statsMessage))
  else statsMessage

/-! ## Assembly (`generateStatsMessage`, part 5) -/

/-- `sortedReasons` as computed for a given message list:
`Object.entries(recallReasons)` in JavaScript enumeration order, then
the stable sort by count descending. -/
def sortedReasonsOf (messages : List StoredMessage) : List (String × Nat) :=
  sortByCountDesc (jsEntries (processMessages messages).1)

/-- `reservedSpace` (discordBot.ts:592-593). -/
def reservedOf (messages : List StoredMessage) : Nat :=
  jsLength (funFactsSection (sortedReasonsOf messages)) +
  jsLength (specialEmojiOf (sortedReasonsOf messages)) +
  jsLength statsFooter

/-- `availableSpace` (discordBot.ts:594). -/
def availOf (messages : List StoredMessage) : Int :=
  (maxLength : Int) -
    (jsLength (headerOf messages (processMessages messages).2) : Int) -
    (reservedOf messages : Int)

/-- The run of the ranked-list loop performed for a message list. -/
def loopResultOf (messages : List StoredMessage) :
    String × List (Nat × String × Nat) × Bool :=
  reasonsLoop (processMessages messages).2 (sortedReasonsOf messages).length
    (availOf messages) (sortedReasonsOf messages) 0 ""

/-- The ranked entries actually rendered in the report, with their loop
indices. -/
def shownEntriesOf (messages : List StoredMessage) :
    List (Nat × String × Nat) :=
  (loopResultOf messages).2.1

/-- `reasonsSection` after the post-loop `not shown` marker
(discordBot.ts:624-628). -/
def reasonsSectionOf (messages : List StoredMessage) : String :=
  if (loopResultOf messages).2.2 = false ∧
      (sortedReasonsOf messages).length > maxEntries then
    (loopResultOf messages).1 ++
      notShownMarker ((sortedReasonsOf messages).length - maxEntries)
  else (loopResultOf messages).1

/-- The body of `generateStatsMessage` (discordBot.ts:507-656) applied
to the author's stored messages: `null` when the list is empty or no
message matches the recall pattern, otherwise the assembled,
length-checked report. -/
def statsFromMessages (messages : List StoredMessage) : Option String :=
  if messages.length = 0 then none
  else if (processMessages messages).2 = 0 then none
  else some (finalLengthCheck
    (headerOf messages (processMessages messages).2 ++
      reasonsSectionOf messages ++
      funFactsSection (sortedReasonsOf messages) ++
      specialEmojiOf (sortedReasonsOf messages) ++
      statsFooter))

/-- `DiscordBot.generateStatsMessage` (discordBot.ts:499-661): read the
reporter id, load that author's messages, and analyse them. -/
def generateStatsMessage (st : DbState) : Option String :=
  statsFromMessages (getMessagesByUserId st (getReporterUserId st))

/-- `generateStatsMessage` against a store whose reads may throw
(`Except.error`): the surrounding `try`/`catch`
(discordBot.ts:500,657-660) converts any store failure into `null`. -/
def generateStatsMessageE (getRep : Except String String)
    (getMsgs : String → Except String (List StoredMessage)) :
    Option String :=
  match getRep with
  | .error _ => none
  | .ok reporterUserId =>
      match getMsgs reporterUserId with
      | .error _ => none
      | .ok messages => statsFromMessages messages

/-- The informational reply of `handleStatsCommand` for a `null` stats
result (discordBot.ts:671-676). -/
def noRecallReply : String :=
  "📊 No recall messages found! Messages need to contain the phrase 'recalled due to...' to be counted. Make sure to set the reporter user ID and update message history first!"

/-- `handleStatsCommand` against a store whose reads may throw. -/
def handleStatsReplyE (getRep : Except String String)
    (getMsgs : String → Except String (List StoredMessage)) : String :=
  match generateStatsMessageE getRep getMsgs with
  | none => noRecallReply
  | some statsMessage => statsMessage

/-! ## Helper lemmas -/

theorem find?_map_upsert (k v : String) :
    ∀ settings : List (String × String),
      settings.any (fun kv => kv.1 = k) = true →
      (settings.map (fun kv => if kv.1 = k then (k, v) else kv)).find?
          (fun kv => kv.1 = k) = some (k, v)
  | [], h => by simp at h
  | kv :: rest, h => by
      by_cases hk : kv.1 = k
      · simp [List.find?, hk]
      · have hrest : rest.any (fun kv => kv.1 = k) = true := by
          simpa [List.any_cons, hk] using h
        simpa [List.find?, hk] using find?_map_upsert k v rest hrest

theorem find?_upsert (settings : List (String × String)) (k v : String) :
    (upsertSetting settings k v).find? (fun kv => kv.1 = k) = some (k, v) := by
  unfold upsertSetting
  by_cases h : settings.any (fun kv => kv.1 = k) = true
  · rw [if_pos h]
    exact find?_map_upsert k v settings h
  · rw [if_neg h]
    have hnone : settings.find? (fun kv => kv.1 = k) = none := by
      rw [List.find?_eq_none]
      intro kv hkv
      intro hdec
      apply h
      rw [List.any_eq_true]
      exact ⟨kv, hkv, hdec⟩
    rw [List.find?_append, hnone]
    simp [List.find?]

theorem getReporterUserId_set (st : DbState) (x : String) :
    getReporterUserId (setReporterUserId st x) =
      if x = "" then defaultReporterUserId else x := by
  have h : (setReporterUserId st x).settings.find?
      (fun kv => kv.1 = reporterKey) = some (reporterKey, x) :=
    find?_upsert st.settings reporterKey x
  unfold getReporterUserId
  rw [h]

theorem addMessage_dup (st : DbState) (m : DiscordMessage)
    (h : st.messages.any (fun r => r.message_id = m.id) = true) :
    addMessage st m = (none, st) := by
  unfold addMessage
  rw [h]
  rfl

/-! ## C9 -/

/-- C9 (counterexample): after `setReporterUserId("")`, the getter does
not return `""` — the JavaScript `||` treats the stored empty string as
falsy and falls back to the default literal. -/
theorem reporter_set_empty_not_returned :
    getReporterUserId (setReporterUserId initialState "") =
        defaultReporterUserId ∧
      defaultReporterUserId ≠ "" := by
  refine ⟨?_, by decide⟩
  rw [getReporterUserId_set]
  simp

/-- C9 (amended): before any `setReporterUserId` call the getter
returns the fixed default literal `"268478587651358721"`; for every
**non-empty** string X, after `setReporterUserId(X)` it returns X; and
after a subsequent `setReporterUserId(Y)` with Y non-empty it returns Y
(the previous value is overwritten, no history kept). -/
theorem reporter_default_and_overwrite (st : DbState) (x y : String)
    (hx : x ≠ "") (hy : y ≠ "") :
    getReporterUserId initialState = defaultReporterUserId ∧
    getReporterUserId (setReporterUserId st x) = x ∧
    getReporterUserId (setReporterUserId (setReporterUserId st x) y) = y := by
  refine ⟨rfl, ?_, ?_⟩
  · rw [getReporterUserId_set]; simp [hx]
  · rw [getReporterUserId_set]; simp [hy]

/-- Witness for C9: concrete run with X = "111", Y = "222". -/
theorem reporter_default_and_overwrite_witness :
    getReporterUserId (setReporterUserId initialState "111") = "111" ∧
    getReporterUserId
        (setReporterUserId (setReporterUserId initialState "111") "222") =
      "222" :=
  ⟨(reporter_default_and_overwrite initialState "111" "222" (by decide)
      (by decide)).2.1,
   (reporter_default_and_overwrite initialState "111" "222" (by decide)
      (by decide)).2.2⟩

/-! ## C1 -/

/-- C1: inserting a message whose external id is not yet stored returns
a positive storage id (the auto-increment counter, at least 1); a second
insert with the same external id returns the `null` sentinel instead of
an exception, and leaves the store — hence the previously stored row
and the message count — unchanged. -/
theorem addMessage_idempotent_insert (st : DbState) (m m' : DiscordMessage)
    (hpos : 1 ≤ st.nextId)
    (hfresh : ∀ r ∈ st.messages, r.message_id ≠ m.id)
    (hdup : m'.id = m.id) :
    ((addMessage st m).1 = some st.nextId ∧ 1 ≤ st.nextId) ∧
    (addMessage (addMessage st m).2 m').1 = none ∧
    (addMessage (addMessage st m).2 m').2 = (addMessage st m).2 ∧
    getMessageCount (addMessage (addMessage st m).2 m').2 none =
      getMessageCount (addMessage st m).2 none := by
  have hany : st.messages.any (fun r => r.message_id = m.id) = false := by
    rw [List.any_eq_false]
    intro r hr
    simpa using hfresh r hr
  have e1 : addMessage st m =
      (some st.nextId,
        { st with
            messages := st.messages ++
              [{ id := st.nextId, message_id := m.id, user_id := m.userId,
                 content := m.content, timestamp := m.timestamp,
                 channel_id := m.channelId }],
            nextId := st.nextId + 1 }) := by
    unfold addMessage
    rw [hany]
    rfl
  have hany2 : ((addMessage st m).2).messages.any
      (fun r => r.message_id = m'.id) = true := by
    rw [e1]
    simp [List.any_append, hdup]
  have e2 : addMessage (addMessage st m).2 m' = (none, (addMessage st m).2) :=
    addMessage_dup _ m' hany2
  refine ⟨⟨by rw [e1], hpos⟩, by rw [e2], by rw [e2], by rw [e2]⟩

/-- Witness for C1: a fresh database, one insert, one duplicate
insert. -/
theorem addMessage_idempotent_insert_witness :
    (addMessage initialState ⟨"m1", "u1", "hi", "t1", "c1"⟩).1 = some 1 ∧
    (addMessage (addMessage initialState ⟨"m1", "u1", "hi", "t1", "c1"⟩).2
        ⟨"m1", "u2", "other", "t2", "c2"⟩).1 = none := by
  have h := addMessage_idempotent_insert initialState
    ⟨"m1", "u1", "hi", "t1", "c1"⟩ ⟨"m1", "u2", "other", "t2", "c2"⟩
    (by decide) (by intro r hr; simp [initialState] at hr) rfl
  exact ⟨h.1.1, h.2.1⟩

/-! ## C2 -/

theorem any_id_eq_false (msgs : List StoredMessage) (mid : String)
    (h : ∀ r ∈ msgs, r.message_id ≠ mid) :
    msgs.any (fun r => r.message_id = mid) = false := by
  rw [List.any_eq_false]
  intro r hr
  simpa using h r hr

theorem addMessage_fresh (st : DbState) (m : DiscordMessage)
    (h : st.messages.any (fun r => r.message_id = m.id) = false) :
    addMessage st m =
      (some st.nextId,
        { st with
            messages := st.messages ++
              [{ id := st.nextId, message_id := m.id, user_id := m.userId,
                 content := m.content, timestamp := m.timestamp,
                 channel_id := m.channelId }],
            nextId := st.nextId + 1 }) := by
  unfold addMessage
  rw [h]
  rfl

/-- The `DiscordMessage` the live path maps an inbound event to
(discordBot.ts:488-494). -/
def mappedMessage (message : InboundMessage) : DiscordMessage :=
  { id := message.id, userId := message.authorId,
    content := message.content, timestamp := message.createdAt,
    channelId := message.channelId }

/-- The `messages` row that storing `mappedMessage` appends. -/
def storedRowOf (st : DbState) (message : InboundMessage) : StoredMessage :=
  { id := st.nextId, message_id := message.id, user_id := message.authorId,
    content := message.content, timestamp := message.createdAt,
    channel_id := message.channelId }

/-- C2: the live ingestion path calls the store exactly when the author
is not a bot, the channel is tracked, and the author id equals the
reporter identity currently read from the store; the call's argument
carries exactly the mapped fields {id, authorId, content, timestamp,
channelId}.  When a guard fails, no store call is made and the store is
untouched; when all guards pass and the external id is fresh, the
appended row carries exactly the mapped fields. -/
theorem handleNewMessage_filter (trackedChannels : List String)
    (st : DbState) (message : InboundMessage) :
    (∀ d, handleNewMessageStoreArg trackedChannels st message = some d ↔
      (message.authorIsBot = false ∧
       message.channelId ∈ trackedChannels ∧
       message.authorId = getReporterUserId st ∧
       d = mappedMessage message)) ∧
    (handleNewMessageStoreArg trackedChannels st message = none →
      handleNewMessage trackedChannels st message = st) ∧
    ((∃ d, handleNewMessageStoreArg trackedChannels st message = some d) →
      (∀ r ∈ st.messages, r.message_id ≠ message.id) →
      handleNewMessage trackedChannels st message =
        { st with messages := st.messages ++ [storedRowOf st message],
                  nextId := st.nextId + 1 }) := by
  have harg : ∀ d, handleNewMessageStoreArg trackedChannels st message = some d ↔
      (message.authorIsBot = false ∧
       message.channelId ∈ trackedChannels ∧
       message.authorId = getReporterUserId st ∧
       d = mappedMessage message) := by
    intro d
    constructor
    · intro h
      unfold handleNewMessageStoreArg at h
      by_cases hb : message.authorIsBot = true
      · rw [if_pos hb] at h
        cases h
      · rw [if_neg hb] at h
        by_cases hc : trackedChannels.contains message.channelId = true
        · rw [if_neg (not_not_intro hc)] at h
          by_cases ha : message.authorId = getReporterUserId st
          · rw [if_neg (not_not_intro ha)] at h
            exact ⟨by simpa using hb, by simpa using hc, ha,
              (Option.some.inj h).symm⟩
          · rw [if_pos ha] at h
            cases h
        · rw [if_pos hc] at h
          cases h
    · rintro ⟨hb, hc, ha, hd⟩
      unfold handleNewMessageStoreArg
      rw [if_neg (by simp [hb]),
        if_neg (not_not_intro (by simpa using hc)),
        if_neg (not_not_intro ha), hd]
      rfl
  refine ⟨harg, ?_, ?_⟩
  · intro h
    unfold handleNewMessage
    rw [h]
  · rintro ⟨d, hd⟩ hfresh
    have hval := ((harg d).mp hd).2.2.2
    unfold handleNewMessage
    rw [hd, hval]
    show (addMessage st (mappedMessage message)).2 = _
    rw [addMessage_fresh st (mappedMessage message)
      (any_id_eq_false st.messages (mappedMessage message).id hfresh)]
    rfl

/-- Witness for C2: a tracked channel, the default reporter, a fresh
database. -/
theorem handleNewMessage_filter_witness :
    handleNewMessageStoreArg ["c1"] initialState
        ⟨"m1", "268478587651358721", false, "hello", "t1", "c1"⟩ =
      some (mappedMessage
        ⟨"m1", "268478587651358721", false, "hello", "t1", "c1"⟩) :=
  ((handleNewMessage_filter ["c1"] initialState
      ⟨"m1", "268478587651358721", false, "hello", "t1", "c1"⟩).1
    (mappedMessage ⟨"m1", "268478587651358721", false, "hello", "t1", "c1"⟩)).mpr
    ⟨rfl, by decide, rfl, rfl⟩

/-! ## C3 -/

/-- C3: run against a scripted page sequence whose pages are of size at
most 100 and whose first sub-100 page is at index `k`, the backfill
loop issues exactly `k + 1` fetches — it never fetches past the first
empty page or the first page smaller than the page size — and reports
`totalFetched` equal to the sum of the sizes of the fetched pages (an
empty terminal page contributes 0). -/
theorem backfill_pagination_termination (pages : List (List RawMessage))
    (st : DbState) (k : Nat)
    (hk : k < pages.length)
    (hall : ∀ p ∈ pages, p.length ≤ batchSize)
    (hsmall : (pages.getD k []).length < batchSize)
    (hbefore : ∀ j, j < k → ¬ (pages.getD j []).length < batchSize) :
    (backfillLoop st pages).fetchCount = k + 1 ∧
    (backfillLoop st pages).totalFetched =
      ((pages.take (k + 1)).map List.length).sum := by
  induction pages generalizing st k with
  | nil => cases hk
  | cons page rest ih =>
    cases k with
    | zero =>
      have hsmall0 : page.length < batchSize := by simpa using hsmall
      simp only [backfillLoop]
      by_cases h0 : page.length = 0
      · rw [if_pos h0]
        exact ⟨rfl, by simp [h0]⟩
      · rw [if_neg h0, if_pos hsmall0]
        exact ⟨rfl, by simp⟩
    | succ k' =>
      have h100 : ¬ page.length < batchSize := by
        simpa using hbefore 0 (Nat.succ_pos _)
      have h0 : page.length ≠ 0 := by
        intro h
        exact h100 (by simp [h, batchSize])
      simp only [backfillLoop]
      rw [if_neg h0, if_neg h100]
      have ihres := ih (storePage st page).2 k' (by simpa using hk)
        (fun p hp => hall p (List.mem_cons_of_mem _ hp))
        (by simpa using hsmall)
        (fun j hj => by simpa using hbefore (j + 1) (by omega))
      refine ⟨?_, ?_⟩
      · simp only [ihres.1]
        omega
      · simp only [List.take_succ_cons, List.map_cons, List.sum_cons]
        rw [← ihres.2]

/-- Witness for C3: a single page of one message terminates after one
fetch with `totalFetched = 1`. -/
theorem backfill_pagination_termination_witness :
    (backfillLoop initialState
        [[⟨"m1", "u1", "hello", "t1", "c1"⟩]]).fetchCount = 1 ∧
    (backfillLoop initialState
        [[⟨"m1", "u1", "hello", "t1", "c1"⟩]]).totalFetched = 1 := by
  have h := backfill_pagination_termination
    [[⟨"m1", "u1", "hello", "t1", "c1"⟩]] initialState 0
    (by decide)
    (by intro p hp; simp at hp; simp [hp, batchSize])
    (by decide)
    (by intro j hj; omega)
  exact ⟨h.1, by rw [h.2]; rfl⟩

/-! ## C4 -/

/-- C4 (spec-modelled store operation): `getMessagesByUserId` returns
exactly the stored messages of the given author — a row is in the
result iff it is stored and has that author — in stored order (a
sublist of the table) with all fields and no pagination limit; and the
statistics extractor obtains its input by applying it to the current
reporter identity. -/
theorem getMessagesByUserId_spec (st : DbState) (authorId : String) :
    (∀ r, r ∈ getMessagesByUserId st authorId ↔
      (r ∈ st.messages ∧ r.user_id = authorId)) ∧
    (getMessagesByUserId st authorId).Sublist st.messages ∧
    generateStatsMessage st =
      statsFromMessages (getMessagesByUserId st (getReporterUserId st)) := by
  refine ⟨?_, ?_, rfl⟩
  · intro r
    unfold getMessagesByUserId
    simp [List.mem_filter]
  · exact List.filter_sublist _

/-! ## C10 -/

/-- C10: the `try`/`catch` around the stats generation swallows store
failures — a throwing reporter lookup or a throwing author-message
query yields `null`, and the stats command then renders the same
informational no-data reply as an empty result, not the generic failure
reply. -/
theorem generateStats_swallows_store_errors (e : String) (rid : String)
    (q : String → Except String (List StoredMessage)) :
    generateStatsMessageE (.error e) q = none ∧
    (∀ g : Except String String,
      generateStatsMessageE g (fun _ => .error e) = none) ∧
    handleStatsReplyE (.error e) q = noRecallReply ∧
    handleStatsReplyE (.ok rid) (fun _ => .error e) = noRecallReply ∧
    handleStatsReplyE (.ok rid) (fun _ => .ok []) = noRecallReply := by
  refine ⟨rfl, ?_, rfl, rfl, rfl⟩
  intro g
  cases g <;> rfl

/-! ## Bridging the extraction loop and the reason list -/

/-- The space a list of lines occupies once joined, counting one
separator per line (an over-approximation by exactly one when the list
is non-empty). -/
def tlen (L : List String) : Nat :=
  (L.map (fun l => jsLength l + 1)).sum

theorem tlen_cons (l : String) (L : List String) :
    tlen (l :: L) = (jsLength l + 1) + tlen L := by
  simp [tlen]

theorem jsJoin_le_tlen : ∀ L : List String, jsLength (jsJoin L) ≤ tlen L
  | [] => by simp [jsJoin, tlen, jsLength]
  | [l] => by simp [jsJoin, tlen]
  | l :: l' :: rest => by
      have ih := jsJoin_le_tlen (l' :: rest)
      show jsLength (l ++ "\n" ++ jsJoin (l' :: rest)) ≤ _
      rw [jsLength_append, jsLength_append, tlen_cons]
      have hnl : jsLength "\n" = 1 := rfl
      omega

theorem safeLinesGo_tlen (o : Nat) :
    ∀ (L : List String) (cur : Nat),
      tlen (safeLinesGo o cur L) ≤
        (maxLength + 1) - (cur + o) + (jsLength truncMarkerLine + 1)
  | [], cur => by simp [safeLinesGo, tlen]
  | l :: rest, cur => by
      unfold safeLinesGo
      by_cases h : cur + jsLength l + 1 + o ≤ maxLength
      · rw [if_pos h]
        have ih := safeLinesGo_tlen o rest (cur + jsLength l + 1)
        rw [tlen_cons]
        omega
      · rw [if_neg h]
        rw [show tlen [truncMarkerLine] = jsLength truncMarkerLine + 1 by
          simp [tlen]]
        omega

theorem finalLengthCheck_le (m : String) :
    jsLength (finalLengthCheck m) ≤ maxLength := by
  unfold finalLengthCheck
  by_cases h : jsLength m > maxLength
  · rw [if_pos h]
    have hM : jsLength truncMarkerLine = 42 := by decide
    have hmax : maxLength = 1900 := rfl
    have hgo := safeLinesGo_tlen (jsLength m - maxLength + 50)
      (jsSplitOnNewline m) 0
    have hj := jsJoin_le_tlen
      (safeLinesGo (jsLength m - maxLength + 50) 0 (jsSplitOnNewline m))
    rw [hmax] at h hgo hj ⊢
    omega
  · rw [if_neg h]
    omega

/-- C5: whenever the statistics formatter produces a report string, its
length (in UTF-16 units, as JavaScript counts it) is at most the
1900-character budget, no matter how many distinct reasons exist or how
long each reason text is — the final safety net drops whole trailing
lines until the report fits. -/
theorem statsMessage_length_bounded (messages : List StoredMessage)
    (s : String) (h : statsFromMessages messages = some s) :
    jsLength s ≤ maxLength := by
  unfold statsFromMessages at h
  by_cases h0 : messages.length = 0
  · rw [if_pos h0] at h
    cases h
  · rw [if_neg h0] at h
    by_cases h1 : (processMessages messages).2 = 0
    · rw [if_pos h1] at h
      cases h
    · rw [if_neg h1] at h
      rw [← Option.some.inj h]
      exact finalLengthCheck_le _

set_option maxRecDepth 100000 in
/-- Witness for C5: the report for a single recall message is produced
and fits the budget. -/
theorem statsMessage_length_bounded_witness :
    (statsFromMessages
        [⟨1, "m1", "u1", "recalled due to Salmonella", "t1", "c1"⟩]).isSome =
      true ∧
    jsLength ((statsFromMessages
        [⟨1, "m1", "u1", "recalled due to Salmonella", "t1", "c1"⟩]).getD "") ≤
      maxLength := by
  have hs : (statsFromMessages
      [⟨1, "m1", "u1", "recalled due to Salmonella", "t1", "c1"⟩]).isSome =
      true := by decide
  have heq : statsFromMessages
      [⟨1, "m1", "u1", "recalled due to Salmonella", "t1", "c1"⟩] =
      some ((statsFromMessages
        [⟨1, "m1", "u1", "recalled due to Salmonella", "t1", "c1"⟩]).getD "") := by
    cases hx : statsFromMessages
        [⟨1, "m1", "u1", "recalled due to Salmonella", "t1", "c1"⟩] with
    | none => rw [hx] at hs; cases hs
    | some s => rfl
  exact ⟨hs, statsMessage_length_bounded _ _ heq⟩

/-! ## C6 -/

theorem mem_insertDesc (x z : String × Nat) :
    ∀ l : List (String × Nat), z ∈ insertDesc x l ↔ z = x ∨ z ∈ l
  | [] => by simp [insertDesc]
  | y :: l => by
      by_cases h : y.2 ≤ x.2
      · simp [insertDesc, h]
      · simp only [insertDesc, if_neg h, List.mem_cons, mem_insertDesc x z l]
        tauto

theorem pairwise_insertDesc (x : String × Nat) :
    ∀ l : List (String × Nat),
      l.Pairwise (fun a b => b.2 ≤ a.2) →
      (insertDesc x l).Pairwise (fun a b => b.2 ≤ a.2)
  | [], _ => by simp [insertDesc]
  | y :: l, h => by
      rcases List.pairwise_cons.mp h with ⟨hy, hl⟩
      by_cases hc : y.2 ≤ x.2
      · rw [show insertDesc x (y :: l) = x :: y :: l by simp [insertDesc, hc]]
        refine List.pairwise_cons.mpr ⟨?_, h⟩
        intro z hz
        rcases List.mem_cons.mp hz with hz | hz
        · exact hz ▸ hc
        · exact le_trans (hy z hz) hc
      · rw [show insertDesc x (y :: l) = y :: insertDesc x l by
          simp [insertDesc, hc]]
        refine List.pairwise_cons.mpr ⟨?_, pairwise_insertDesc x l hl⟩
        intro z hz
        rcases (mem_insertDesc x z l).mp hz with hz | hz
        · exact hz ▸ le_of_lt (Nat.lt_of_not_le hc)
        · exact hy z hz

theorem sortByCountDesc_pairwise :
    ∀ l : List (String × Nat),
      (sortByCountDesc l).Pairwise (fun a b => b.2 ≤ a.2)
  | [] => by simp [sortByCountDesc]
  | x :: l => pairwise_insertDesc x _ (sortByCountDesc_pairwise l)

theorem filter_insertDesc (c : Nat) (x : String × Nat) :
    ∀ l : List (String × Nat),
      (insertDesc x l).filter (fun p => p.2 = c) =
        if x.2 = c then x :: l.filter (fun p => p.2 = c)
        else l.filter (fun p => p.2 = c)
  | [] => by
      by_cases h : x.2 = c <;> simp [insertDesc, h]
  | y :: l => by
      by_cases hc : y.2 ≤ x.2
      · rw [show insertDesc x (y :: l) = x :: y :: l by simp [insertDesc, hc]]
        by_cases hx : x.2 = c
        · rw [if_pos hx, List.filter_cons_of_pos (by simpa using hx)]
        · rw [if_neg hx, List.filter_cons_of_neg (by simpa using hx)]
      · rw [show insertDesc x (y :: l) = y :: insertDesc x l by
          simp [insertDesc, hc]]
        by_cases hx : x.2 = c
        · have hy : ¬ y.2 = c := by
            intro h
            exact hc (le_of_eq (h.trans hx.symm))
          rw [if_pos hx, List.filter_cons_of_neg (by simpa using hy),
            List.filter_cons_of_neg (by simpa using hy),
            filter_insertDesc c x l, if_pos hx]
        · rw [if_neg hx]
          by_cases hy : y.2 = c
          · rw [List.filter_cons_of_pos (by simpa using hy),
              List.filter_cons_of_pos (by simpa using hy),
              filter_insertDesc c x l, if_neg hx]
          · rw [List.filter_cons_of_neg (by simpa using hy),
              List.filter_cons_of_neg (by simpa using hy),
              filter_insertDesc c x l, if_neg hx]

theorem sortByCountDesc_filter (c : Nat) :
    ∀ l : List (String × Nat),
      (sortByCountDesc l).filter (fun p => p.2 = c) =
        l.filter (fun p => p.2 = c)
  | [] => rfl
  | x :: l => by
      rw [show sortByCountDesc (x :: l) = insertDesc x (sortByCountDesc l)
        from rfl]
      rw [filter_insertDesc c x (sortByCountDesc l), sortByCountDesc_filter c l]
      by_cases hx : x.2 = c
      · rw [if_pos hx, List.filter_cons_of_pos (by simpa using hx)]
      · rw [if_neg hx, List.filter_cons_of_neg (by simpa using hx)]

theorem reasonsLoop_entries (total totalGroups : Nat) (avail : Int) :
    ∀ (l : List (String × Nat)) (i : Nat) (acc : String),
      ((reasonsLoop total totalGroups avail l i acc).2.1.map
          (fun e => (e.2.1, e.2.2))) =
        l.take (reasonsLoop total totalGroups avail l i acc).2.1.length ∧
      (∀ k, k < (reasonsLoop total totalGroups avail l i acc).2.1.length →
        ((reasonsLoop total totalGroups avail l i acc).2.1.getD k
          (0, "", 0)).1 = i + k) ∧
      (reasonsLoop total totalGroups avail l i acc).2.1.length ≤
        maxEntries - i
  | [], i, acc => by
      simp [reasonsLoop]
  | (reason, count) :: rest, i, acc => by
      by_cases hi : i < maxEntries
      · by_cases hsp : (jsLength acc : Int) +
            (jsLength (reasonLine i reason count total) : Int) + 50 >
            avail
        · rw [show reasonsLoop total totalGroups avail
              ((reason, count) :: rest) i acc =
              (acc ++ midTruncationMarker (totalGroups - i), [], true) by
            simp [reasonsLoop, hi, hsp]]
          simp
        · rw [show reasonsLoop total totalGroups avail
              ((reason, count) :: rest) i acc =
              ((reasonsLoop total totalGroups avail rest (i + 1)
                  (acc ++ reasonLine i reason count total)).1,
                (i, reason, count) ::
                  (reasonsLoop total totalGroups avail rest (i + 1)
                    (acc ++ reasonLine i reason count total)).2.1,
                (reasonsLoop total totalGroups avail rest (i + 1)
                  (acc ++ reasonLine i reason count total)).2.2) by
            simp [reasonsLoop, hi, hsp]]
          obtain ⟨ih1, ih2, ih3⟩ := reasonsLoop_entries total totalGroups avail
            rest (i + 1) (acc ++ reasonLine i reason count total)
          refine ⟨?_, ?_, ?_⟩
          · simp only [List.map_cons, List.length_cons, List.take_succ_cons]
            rw [ih1]
          · intro k hk
            cases k with
            | zero => simp
            | succ k2 =>
                simp only [List.length_cons] at hk
                simp only [List.getD_cons_succ]
                rw [ih2 k2 (by omega)]
                omega
          · simp only [List.length_cons]
            omega
      · rw [show reasonsLoop total totalGroups avail
            ((reason, count) :: rest) i acc = (acc, [], false) by
          simp [reasonsLoop, hi]]
        simp

theorem perm_insertAscByVal (x : String × Nat) :
    ∀ l : List (String × Nat), (insertAscByVal x l).Perm (x :: l)
  | [] => List.Perm.refl _
  | y :: l => by
      by_cases h : keyVal x.1 ≤ keyVal y.1
      · rw [show insertAscByVal x (y :: l) = x :: y :: l by
          simp [insertAscByVal, h]]
      · rw [show insertAscByVal x (y :: l) = y :: insertAscByVal x l by
          simp [insertAscByVal, h]]
        exact ((perm_insertAscByVal x l).cons y).trans (List.Perm.swap x y l)

theorem perm_sortAscByVal :
    ∀ l : List (String × Nat), (sortAscByVal l).Perm l
  | [] => List.Perm.refl _
  | x :: l =>
      (perm_insertAscByVal x (sortAscByVal l)).trans
        ((perm_sortAscByVal l).cons x)

theorem perm_jsEntries (groups : List (String × Nat)) :
    (jsEntries groups).Perm groups := by
  unfold jsEntries
  exact ((perm_sortAscByVal _).append_right _).trans
    (List.filter_append_perm _ groups)

theorem filter_jsEntries_nonIndex (groups : List (String × Nat)) :
    (jsEntries groups).filter (fun g => ! isArrayIndexKey g.1) =
      groups.filter (fun g => ! isArrayIndexKey g.1) := by
  unfold jsEntries
  rw [List.filter_append]
  have h1 : (sortAscByVal
      (groups.filter (fun g => isArrayIndexKey g.1))).filter
        (fun g => ! isArrayIndexKey g.1) = [] := by
    rw [List.filter_eq_nil_iff]
    intro g hg
    have hp := (List.mem_filter.mp
      ((perm_sortAscByVal _).mem_iff.mp hg)).2
    simp [hp]
  have h2 : (groups.filter (fun g => ! isArrayIndexKey g.1)).filter
      (fun g => ! isArrayIndexKey g.1) =
      groups.filter (fun g => ! isArrayIndexKey g.1) := by
    rw [List.filter_filter]
    simp only [Bool.and_self]
  rw [h1, h2, List.nil_append]

set_option maxRecDepth 100000 in
/-- C7 (counterexample): ties do *not* keep discovery order.  With the
reasons "Apple" then "9" (both count 1), the groups are discovered in
the order Apple, 9, but `Object.entries` enumerates the array-index key
"9" first, so the stable sort renders the tie as 9 before Apple — the
reverse of discovery order. -/
theorem stats_ranking_tie_order_counterexample :
    (processMessages
      [⟨1, "m1", "u1", "recalled due to Apple", "t1", "c1"⟩,
       ⟨2, "m2", "u1", "recalled due to 9", "t2", "c2"⟩]).1 =
      [("Apple", 1), ("9", 1)] ∧
    sortedReasonsOf
      [⟨1, "m1", "u1", "recalled due to Apple", "t1", "c1"⟩,
       ⟨2, "m2", "u1", "recalled due to 9", "t2", "c2"⟩] =
      [("9", 1), ("Apple", 1)] ∧
    sortedReasonsOf
      [⟨1, "m1", "u1", "recalled due to Apple", "t1", "c1"⟩,
       ⟨2, "m2", "u1", "recalled due to 9", "t2", "c2"⟩] ≠
      [("Apple", 1), ("9", 1)] := by
  refine ⟨by decide, by decide, by decide⟩

/-- C7 (amended): in the rendered report the groups are sorted by count
descending with ties keeping JavaScript's object enumeration order —
array-index reason keys first in ascending numeric order, then the
remaining keys in discovery order (the filter at any count is unchanged
from the enumeration-ordered entry list, which is a permutation of the
discovered groups preserving the relative order of all non-array-index
keys); at most the top 20 entries are rendered, the rendered entries
are an initial segment of the sorted list with consecutive loop indices
starting at 0; and exactly the first three indices carry a (distinct,
non-empty) medal marker while every later index is plain. -/
theorem stats_ranking_top20_medals (messages : List StoredMessage) :
    (sortedReasonsOf messages).Pairwise (fun a b => b.2 ≤ a.2) ∧
    (∀ c : Nat, (sortedReasonsOf messages).filter (fun g => g.2 = c) =
      (jsEntries ((processMessages messages).1)).filter
        (fun g => g.2 = c)) ∧
    (jsEntries ((processMessages messages).1)).Perm
      ((processMessages messages).1) ∧
    (jsEntries ((processMessages messages).1)).filter
        (fun g => ! isArrayIndexKey g.1) =
      ((processMessages messages).1).filter
        (fun g => ! isArrayIndexKey g.1) ∧
    (shownEntriesOf messages).length ≤ maxEntries ∧
    (shownEntriesOf messages).map (fun e => (e.2.1, e.2.2)) =
      (sortedReasonsOf messages).take (shownEntriesOf messages).length ∧
    (∀ k, k < (shownEntriesOf messages).length →
      ((shownEntriesOf messages).getD k (0, "", 0)).1 = k) ∧
    (entryMarker 0 = "🥇 " ∧ entryMarker 1 = "🥈 " ∧
      entryMarker 2 = "🥉 ") ∧
    (∀ k, 3 ≤ k → entryMarker k = "") := by
  obtain ⟨h1, h2, h3⟩ := reasonsLoop_entries (processMessages messages).2
    (sortedReasonsOf messages).length (availOf messages)
    (sortedReasonsOf messages) 0 ""
  refine ⟨sortByCountDesc_pairwise _,
    fun c => sortByCountDesc_filter c (jsEntries (processMessages messages).1),
    perm_jsEntries _, filter_jsEntries_nonIndex _, ?_, h1, ?_,
    ⟨rfl, rfl, rfl⟩, ?_⟩
  · simpa using h3
  · intro k hk
    simpa using h2 k hk
  · intro k hk
    unfold entryMarker
    rw [if_neg (by omega)]

set_option maxRecDepth 100000 in
/-- Witness for C7: a two-group run; the first rendered entry has index
0 and the medal marker for index 0 is the gold medal. -/
theorem stats_ranking_top20_medals_witness :
    ((shownEntriesOf
      [⟨1, "m1", "u1", "recalled due to Salmonella", "t1", "c1"⟩,
       ⟨2, "m2", "u1", "recalled due to Listeria", "t2", "c2"⟩]).getD 0
        (0, "", 0)).1 = 0 ∧
    entryMarker 0 = "🥇 " := by
  have h := stats_ranking_top20_medals
    [⟨1, "m1", "u1", "recalled due to Salmonella", "t1", "c1"⟩,
     ⟨2, "m2", "u1", "recalled due to Listeria", "t2", "c2"⟩]
  exact ⟨h.2.2.2.2.2.2.1 0 (by decide), h.2.2.2.2.2.2.2.1.1⟩
